import Mathlib

/-!
Verification development for the ConnectHub blogging platform.

This file gives a shallow embedding in Lean of the storage and route layers
of the repository (`src/server/storage.ts`, `src/server/db.ts`,
`src/server/routes.ts`, the unnamed routes file, and the mongoose schema in
the shared-schema source file), together with theorems settling the frozen
claims about that code.

Modelling conventions:
- Database tables / collections become Lean lists held in a `StoreState`;
  string ids stay `String`, serial numeric ids become `Nat`, timestamps
  become `Nat` (newest = largest).
- SQL `ORDER BY x DESC` and Mongo `.sort({x: -1})` are determinised as a
  stable insertion sort on the key (SQL/Mongo leave tie order unspecified;
  the same determinisation is used on both the code side and the
  specification side of every theorem).
- SQL inner joins become `flatMap` over the matching rows; Mongo
  `findById` becomes `List.find?`.
- Fallible operations return `Except`/`Option`; the JavaScript strict
  equality `error.code === '23505'` between a number and a string is
  embedded with an explicit `JsCode` sum type.
-/

/-- A user record (`users` table / `User` collection): nullable columns are
`Option`s, `createdAt` is a numeric timestamp. -/
structure User where
  id : String
  email : Option String
  username : Option String
  firstName : Option String
  lastName : Option String
  bio : Option String
  profileImageUrl : Option String
  createdAt : Nat
deriving Repr, DecidableEq

/-- A post record (`posts` table / `Post` collection). -/
structure Post where
  id : Nat
  userId : String
  content : String
  imageUrl : Option String
  createdAt : Nat
deriving Repr, DecidableEq

/-- A follow edge (`follows` table / `Follow` collection). -/
structure Follow where
  followerId : String
  followingId : String
deriving Repr, DecidableEq

/-- A like edge (`likes` table / `Like` collection). -/
structure Like where
  userId : String
  postId : Nat
deriving Repr, DecidableEq

/-- A comment record (`comments` table / `Comment` collection). -/
structure Comment where
  id : Nat
  userId : String
  postId : Nat
  content : String
  createdAt : Nat
deriving Repr, DecidableEq

/-- The whole persistent store: one list per table/collection. -/
structure StoreState where
  users : List User
  posts : List Post
  follows : List Follow
  likes : List Like
  comments : List Comment
deriving Repr, DecidableEq

/-- Insert `x` into a list sorted by `key` descending, after any earlier
element with an equal or larger key (stable). -/
def insertDesc (key : α → Nat) (x : α) : List α → List α
  | [] => [x]
  | y :: ys => if key y < key x then x :: y :: ys else y :: insertDesc key x ys

/-- Stable insertion sort, largest key first: the determinisation of SQL
`ORDER BY key DESC` and Mongo `.sort({key: -1})` used throughout. -/
def sortDesc (key : α → Nat) : List α → List α
  | [] => []
  | x :: xs => insertDesc key x (sortDesc key xs)

/-- Embeds `getLikesCount` (count of like rows for a post; identical in
`storage.ts` and `db.ts`). -/
def getLikesCount (st : StoreState) (postId : Nat) : Nat :=
  (st.likes.filter (fun l => l.postId == postId)).length

/-- Embeds `getCommentsCount` (count of comment rows for a post; identical
in `storage.ts` and `db.ts`). -/
def getCommentsCount (st : StoreState) (postId : Nat) : Nat :=
  (st.comments.filter (fun c => c.postId == postId)).length

/-- Embeds `isLiked` (existence of a like edge; identical in both
backends). -/
def isLiked (st : StoreState) (userId : String) (postId : Nat) : Bool :=
  st.likes.any (fun l => l.userId == userId && l.postId == postId)

/-- Embeds `isFollowing` from `storage.ts` / `db.ts`: existence check of a
follow edge for the ordered pair. -/
def isFollowing (st : StoreState) (followerId followingId : String) : Bool :=
  st.follows.any (fun f => f.followerId == followerId && f.followingId == followingId)

/-- Embeds `followUser` from `storage.ts`: plain insert of a follow edge. -/
def followUser (st : StoreState) (followerId followingId : String) : StoreState :=
  { st with follows := st.follows ++ [{ followerId := followerId, followingId := followingId }] }

/-- Embeds `unfollowUser` from `storage.ts`: delete all edges matching the
ordered pair, returning whether any row was deleted and the new state. -/
def unfollowUser (st : StoreState) (followerId followingId : String) : Bool × StoreState :=
  let isPair := fun (f : Follow) => f.followerId == followerId && f.followingId == followingId
  let deleted := st.follows.filter isPair
  (deleted.length > 0, { st with follows := st.follows.filter (fun f => !(isPair f)) })

/-- A JavaScript error-code value: mongoose duplicate-key errors carry the
number `11000`, Postgres unique-violation errors carry the string
`'23505'`; JS strict equality between the two kinds is always false. -/
inductive JsCode where
  | num (n : Int)
  | str (s : String)
deriving Repr, DecidableEq

/-- Embeds `followUser` from `db.ts` running against the `followSchema`
unique compound index on `(followerId, followingId)` declared in the shared
mongoose schema: creating a duplicate edge rejects with the MongoDB
duplicate-key error code `11000`. -/
def dbFollowUser (st : StoreState) (followerId followingId : String) :
    Except JsCode (Follow × StoreState) :=
  if st.follows.any (fun f => f.followerId == followerId && f.followingId == followingId) then
    Except.error (JsCode.num 11000)
  else
    let f : Follow := { followerId := followerId, followingId := followingId }
    Except.ok (f, { st with follows := st.follows ++ [f] })

/-- An HTTP response, reduced to its status code and message. -/
structure RouteResponse where
  status : Nat
  message : String
deriving Repr, DecidableEq

/-- Embeds the `POST /api/users/:id/follow` handler of the unnamed routes
file (identical guard in `routes.ts`): reject self-follow with 400 before
touching the store, otherwise call the store's `followUser`; on error,
answer 400 only when the error code strictly equals the string `'23505'`,
else 500. -/
def followRoute (st : StoreState) (followerId followingId : String) :
    RouteResponse × StoreState :=
  if followerId == followingId then
    ({ status := 400, message := "Cannot follow yourself" }, st)
  else
    match dbFollowUser st followerId followingId with
    | Except.ok (_, st') => ({ status := 200, message := "ok" }, st')
    | Except.error e =>
      if e == JsCode.str "23505" then
        ({ status := 400, message := "Already following this user" }, st)
      else
        ({ status := 500, message := "Failed to follow user" }, st)

/-- Concrete two-user store with one existing follow edge a → b, used to
exercise the duplicate-follow path. -/
def stTwoUsers : StoreState :=
  { users :=
      [ { id := "a", email := none, username := some "alice", firstName := none,
          lastName := none, bio := none, profileImageUrl := none, createdAt := 1 },
        { id := "b", email := none, username := some "bob", firstName := none,
          lastName := none, bio := none, profileImageUrl := none, createdAt := 2 } ],
    posts := [], follows := [{ followerId := "a", followingId := "b" }],
    likes := [], comments := [] }

/-- A post joined with its author and the per-read derived annotations, the
result shape of the feed reads (`PostWithAuthor` in the shared schema; the
TypeScript object spreads the post fields, embedded here as a `post`
component). -/
structure PostWithAuthor where
  post : Post
  author : User
  likesCount : Nat
  commentsCount : Nat
  isLiked : Bool
deriving Repr, DecidableEq

/-- A comment joined with its author (`CommentWithAuthor`). -/
structure CommentWithAuthor where
  comment : Comment
  author : User
deriving Repr, DecidableEq

/-- A search row: the user plus followers-count and the viewer-relative
`isFollowing` flag (`UserSearchResult`; the TypeScript object spreads the
user fields, embedded as a `user` component). -/
structure UserSearchResult where
  user : User
  followersCount : Nat
  isFollowing : Bool
deriving Repr, DecidableEq

/-- Embeds `getFollowing` from `storage.ts`: join of the viewer-rooted
follow edges with the users table, selecting the followed user records. -/
def getFollowing (st : StoreState) (userId : String) : List User :=
  (st.follows.filter (fun f => f.followerId == userId)).flatMap
    (fun f => st.users.filter (fun u => u.id == f.followingId))

/-- Embeds `getFeedPosts` from `storage.ts`: collect the ids the viewer
follows, append the viewer's own id, return `[]` on an empty id list
(unreachable, kept from the source), then select posts authored by any of
those ids joined with their author, newest-first, with `offset` dropped and
`limit` taken, each row annotated with counts and the viewer's `isLiked`. -/
def getFeedPosts (st : StoreState) (userId : String) (limit : Nat := 50) (offset : Nat := 0) :
    List PostWithAuthor :=
  let followingIdList :=
    ((st.follows.filter (fun f => f.followerId == userId)).map (fun f => f.followingId)) ++ [userId]
  if followingIdList.isEmpty then [] else
  let rows :=
    ((sortDesc (fun p : Post => p.createdAt) st.posts).filter
        (fun p => followingIdList.contains p.userId)).flatMap
      (fun p => (st.users.filter (fun u => u.id == p.userId)).map (fun u => (p, u)))
  ((rows.drop offset).take limit).map
    (fun r => { post := r.1, author := r.2,
                likesCount := getLikesCount st r.1.id,
                commentsCount := getCommentsCount st r.1.id,
                isLiked := isLiked st userId r.1.id })

/-- Embeds `deletePost` from `storage.ts`: delete the rows matching both
the post id and the requesting user id, report whether any row went. -/
def deletePost (st : StoreState) (id : Nat) (userId : String) : Bool × StoreState :=
  let isRow := fun (p : Post) => p.id == id && p.userId == userId
  let deleted := st.posts.filter isRow
  (deleted.length > 0, { st with posts := st.posts.filter (fun p => !(isRow p)) })

/-- Embeds `deleteComment` from `storage.ts`: delete the rows matching both
the comment id and the requesting user id, report whether any row went. -/
def deleteComment (st : StoreState) (id : Nat) (userId : String) : Bool × StoreState :=
  let isRow := fun (c : Comment) => c.id == id && c.userId == userId
  let deleted := st.comments.filter isRow
  (deleted.length > 0, { st with comments := st.comments.filter (fun c => !(isRow c)) })

/-- All suffixes of a character list, longest first, ending with `[]`. -/
def tails : List Char → List (List Char)
  | [] => [[]]
  | d :: t => (d :: t) :: tails t

/-- SQL `LIKE`/`ILIKE` pattern matching over character lists,
case-insensitively: `%` matches any run of characters (some suffix of the
subject matches the rest of the pattern), `_` matches any single
character, the default escape character backslash makes the following
pattern character match itself up to case, and anything else matches
itself up to ASCII case.  Postgres raises an error on a pattern ending in
the escape character; such a pattern is modelled as matching nothing
(`searchUsers` always builds patterns ending in `%`, so a trailing escape
can only arise from a query ending in a backslash, which escapes that
final `%` into a literal one). -/
def likeMatch : List Char → List Char → Bool
  | [], s => s.isEmpty
  | c :: p, s =>
    if c = '\\' then
      match p with
      | [] => false
      | e :: p2 =>
        match s with
        | [] => false
        | d :: s2 => (e.toLower == d.toLower) && likeMatch p2 s2
    else if c = '%' then
      (tails s).any (fun s2 => likeMatch p s2)
    else
      match s with
      | [] => false
      | d :: s2 =>
        if c = '_' then likeMatch p s2
        else (c.toLower == d.toLower) && likeMatch p s2

/-- Field-level `ILIKE`: a SQL NULL (here `none`) never matches. -/
def ilikeOpt (field : Option String) (pattern : List Char) : Bool :=
  match field with
  | none => false
  | some s => likeMatch pattern s.data

/-- Embeds the JavaScript `String.prototype.trim`: strip leading and
trailing whitespace. -/
def strTrim (s : String) : String :=
  String.mk (((s.data.dropWhile Char.isWhitespace).reverse.dropWhile Char.isWhitespace).reverse)

/-- Embeds `searchUsers` from `storage.ts`: empty trimmed query short-cuts
to `[]`; otherwise match `%trimmed%` with `ILIKE` against username, first
name and last name, exclude the current user when present, order
newest-account-first, cap at the limit clamped into `[1, 25]` (default 10),
and annotate each row with its followers-count and the viewer-relative
`isFollowing`. -/
def searchUsers (st : StoreState) (query : String) (currentUserId : Option String)
    (limit : Option Int) : List UserSearchResult :=
  let trimmed := strTrim query
  if trimmed = "" then [] else
  let wildcard := '%' :: trimmed.data ++ ['%']
  let nameMatch := fun (u : User) =>
    ilikeOpt u.username wildcard || ilikeOpt u.firstName wildcard || ilikeOpt u.lastName wildcard
  let whereClause := fun (u : User) =>
    match currentUserId with
    | some cid => nameMatch u && u.id != cid
    | none => nameMatch u
  let safeLimit : Int := min (max (limit.getD 10) 1) 25
  let rows := ((sortDesc (fun u : User => u.createdAt) st.users).filter whereClause).take
    safeLimit.toNat
  rows.map (fun u =>
    { user := u,
      followersCount := (st.follows.filter (fun f => f.followingId == u.id)).length,
      isFollowing :=
        match currentUserId with
        | some cid => isFollowing st cid u.id
        | none => false })

/-- Decides whether `needle` occurs contiguously inside `s`. -/
def hasInfix (needle : List Char) : List Char → Bool
  | [] => needle.isEmpty
  | d :: t => needle.isPrefixOf (d :: t) || hasInfix needle t

/-- Written from the spec: `needle` occurs in `s` as a case-insensitive
literal substring. -/
def containsCI (needle s : String) : Bool :=
  hasInfix (needle.data.map Char.toLower) (s.data.map Char.toLower)

/-- Written from the spec: the user's username, first name, or last name
contains the query as a case-insensitive literal substring (a missing field
never matches). -/
def specNameMatch (q : String) (u : User) : Bool :=
  (u.username.map (containsCI q)).getD false ||
  (u.firstName.map (containsCI q)).getD false ||
  (u.lastName.map (containsCI q)).getD false

/-- Written from the spec: user search as §4.4 words it — case-insensitive
substring match of the trimmed query over username, first and last name,
excluding the requesting viewer when present, newest-account-first, capped
at the limit clamped into `[1, 25]` (default 10), each row annotated with
followers-count and the viewer-relative `isFollowing`; empty or
whitespace-only query gives `[]`. -/
def specSearchUsers (st : StoreState) (query : String) (currentUserId : Option String)
    (limit : Option Int) : List UserSearchResult :=
  let trimmed := strTrim query
  if trimmed = "" then [] else
  let keep := fun (u : User) =>
    specNameMatch trimmed u &&
      (match currentUserId with
       | some cid => u.id != cid
       | none => true)
  let safeLimit : Int := min (max (limit.getD 10) 1) 25
  (((sortDesc (fun u : User => u.createdAt) st.users).filter keep).take safeLimit.toNat).map
    (fun u =>
      { user := u,
        followersCount := (st.follows.filter (fun f => f.followingId == u.id)).length,
        isFollowing :=
          match currentUserId with
          | some cid => isFollowing st cid u.id
          | none => false })

/-- Written from the spec: the author set of the personalized feed,
`S = listFollowing(viewerId) ∪ \{viewerId\}`, as a list of ids. -/
def specFeedAuthors (st : StoreState) (viewerId : String) : List String :=
  (getFollowing st viewerId).map (fun u => u.id) ++ [viewerId]

/-- Embeds `getPosts` from `db.ts` (document backend): all posts sorted
newest-first, `offset` skipped and `limit` taken, then each surviving post
joined with its author via `findById` — posts whose author record is gone
are dropped from the result. -/
def dbGetPosts (st : StoreState) (currentUserId : Option String) (limit : Nat := 50)
    (offset : Nat := 0) : List PostWithAuthor :=
  (((sortDesc (fun p : Post => p.createdAt) st.posts).drop offset).take limit).filterMap
    (fun p =>
      (st.users.find? (fun u => u.id == p.userId)).map
        (fun u =>
          { post := p, author := u,
            likesCount := getLikesCount st p.id,
            commentsCount := getCommentsCount st p.id,
            isLiked :=
              match currentUserId with
              | some cid => isLiked st cid p.id
              | none => false }))

/-- Embeds `getFeedPosts` from `db.ts`: distinct followed ids plus the
viewer's own id, posts by those authors sorted newest-first and paginated,
then author lookup with missing authors dropped. -/
def dbGetFeedPosts (st : StoreState) (userId : String) (limit : Nat := 50) (offset : Nat := 0) :
    List PostWithAuthor :=
  let followingIds :=
    ((st.follows.filter (fun f => f.followerId == userId)).map
      (fun f => f.followingId)).eraseDups ++ [userId]
  ((((sortDesc (fun p : Post => p.createdAt) st.posts).filter
      (fun p => followingIds.contains p.userId)).drop offset).take limit).filterMap
    (fun p =>
      (st.users.find? (fun u => u.id == p.userId)).map
        (fun u =>
          { post := p, author := u,
            likesCount := getLikesCount st p.id,
            commentsCount := getCommentsCount st p.id,
            isLiked := isLiked st userId p.id }))

/-- Embeds `getUserPosts` from `db.ts`: one author's posts newest-first,
then author lookup with missing authors dropped. -/
def dbGetUserPosts (st : StoreState) (userId : String) (currentUserId : Option String) :
    List PostWithAuthor :=
  ((sortDesc (fun p : Post => p.createdAt) st.posts).filter (fun p => p.userId == userId)).filterMap
    (fun p =>
      (st.users.find? (fun u => u.id == p.userId)).map
        (fun u =>
          { post := p, author := u,
            likesCount := getLikesCount st p.id,
            commentsCount := getCommentsCount st p.id,
            isLiked :=
              match currentUserId with
              | some cid => isLiked st cid p.id
              | none => false }))

/-- Embeds `getComments` from `db.ts`: a post's comments newest-first, each
joined with its author via `findById`, comments with a missing author
dropped. -/
def dbGetComments (st : StoreState) (postId : Nat) : List CommentWithAuthor :=
  ((sortDesc (fun c : Comment => c.createdAt) st.comments).filter
      (fun c => c.postId == postId)).filterMap
    (fun c =>
      (st.users.find? (fun u => u.id == c.userId)).map
        (fun u => { comment := c, author := u }))

/-- Embeds `getUserByUsername` (both backends): first user whose username
column equals the given string. -/
def getUserByUsername (st : StoreState) (username : String) : Option User :=
  st.users.find? (fun u => u.username == some username)

/-- The update object the profile handler builds: a `some` field is set, a
`none` field is left untouched; for `bio` and `profileImageUrl` the inner
`Option` distinguishes clearing (SQL NULL) from a new value. -/
structure UpdateData where
  username : Option String
  bio : Option (Option String)
  profileImageUrl : Option (Option String)
deriving Repr, DecidableEq

/-- Apply an `UpdateData` to one user row (the SET clause of
`updateUser`). -/
def applyUpdate (d : UpdateData) (u : User) : User :=
  let u1 := match d.username with
    | some x => { u with username := some x }
    | none => u
  let u2 := match d.bio with
    | some b => { u1 with bio := b }
    | none => u1
  match d.profileImageUrl with
  | some p => { u2 with profileImageUrl := p }
  | none => u2

/-- Embeds `updateUser` from `storage.ts`: update every row with the given
id (ids are unique in any well-formed store), returning the first updated
row and the new state. -/
def updateUser (st : StoreState) (id : String) (d : UpdateData) : Option User × StoreState :=
  let updated := (st.users.filter (fun u => u.id == id)).map (applyUpdate d)
  (updated.head?,
   { st with users := st.users.map (fun u => if u.id == id then applyUpdate d u else u) })

/-- The validated body of `PUT /api/users/me` (the zod schema upstream has
already enforced the username pattern and the length bounds). -/
structure UpdateMeBody where
  username : Option String
  bio : Option String
  profileImageUrl : Option String
deriving Repr, DecidableEq

/-- The outcome of the profile-update handler: an error response, or the
JSON body of the updated user. -/
inductive UpdateMeResult where
  | rejected (status : Nat) (message : String)
  | updated (user : Option User)
deriving Repr, DecidableEq

/-- Embeds the `PUT /api/users/me` handler (identical in `routes.ts` and
the unnamed routes file), after zod validation: when a username is
submitted, look it up and reject with 400 "Username is already taken" only
when the holder is a different user; then build the update object (empty
strings clear `bio` / `profileImageUrl` to NULL) and run `updateUser`. -/
def updateMeRoute (st : StoreState) (userId : String) (body : UpdateMeBody) :
    UpdateMeResult × StoreState :=
  let taken :=
    match body.username with
    | some uname =>
      match getUserByUsername st uname with
      | some existing => existing.id != userId
      | none => false
    | none => false
  if taken then (UpdateMeResult.rejected 400 "Username is already taken", st)
  else
    let d : UpdateData :=
      { username := body.username,
        bio := body.bio.map (fun b => if b = "" then none else some b),
        profileImageUrl := body.profileImageUrl.map (fun p => if p = "" then none else some p) }
    let r := updateUser st userId d
    (UpdateMeResult.updated r.1, r.2)

/-- Concrete one-user store whose user's username is "abc". -/
def stOneUserAbc : StoreState :=
  { users :=
      [ { id := "u1", email := none, username := some "abc", firstName := none,
          lastName := none, bio := none, profileImageUrl := none, createdAt := 1 } ],
    posts := [], follows := [], likes := [], comments := [] }

/-- Concrete store with two users, one follow edge a → b, one post by each
user and one comment by user a: exercises feed, delete, and join reads. -/
def stWitFeed : StoreState :=
  { users :=
      [ { id := "a", email := none, username := some "alice", firstName := none,
          lastName := none, bio := none, profileImageUrl := none, createdAt := 1 },
        { id := "b", email := none, username := some "bob", firstName := none,
          lastName := none, bio := none, profileImageUrl := none, createdAt := 2 } ],
    posts :=
      [ { id := 1, userId := "a", content := "hello world", imageUrl := none, createdAt := 5 },
        { id := 2, userId := "b", content := "second", imageUrl := none, createdAt := 9 } ],
    follows := [{ followerId := "a", followingId := "b" }],
    likes := [],
    comments := [{ id := 1, userId := "a", postId := 1, content := "nice", createdAt := 7 }] }

/-- Concrete store holding one post whose author record does not exist. -/
def stOrphan : StoreState :=
  { users := [],
    posts := [{ id := 1, userId := "ghost", content := "orphan", imageUrl := none, createdAt := 3 }],
    follows := [], likes := [], comments := [] }

/-- The row `dbGetPosts` produces for the newest post of `stWitFeed`. -/
def rowWitFeed : PostWithAuthor :=
  { post := { id := 2, userId := "b", content := "second", imageUrl := none, createdAt := 9 },
    author := { id := "b", email := none, username := some "bob", firstName := none,
                lastName := none, bio := none, profileImageUrl := none, createdAt := 2 },
    likesCount := 0, commentsCount := 0, isLiked := false }

/-- Helper: a predicate never holds on the list filtered by its negation. -/
theorem any_filter_not (l : List α) (p : α → Bool) :
    (l.filter (fun x => !(p x))).any p = false := by
  induction l with
  | nil => rfl
  | cons x xs ih =>
    by_cases h : p x <;> simp [List.filter_cons, h, ih]

/-- Membership is preserved by `insertDesc`. -/
theorem mem_insertDesc (key : α → Nat) (x a : α) (l : List α) :
    a ∈ insertDesc key x l ↔ a = x ∨ a ∈ l := by
  induction l with
  | nil => simp [insertDesc]
  | cons y ys ih =>
    simp only [insertDesc]
    split
    · simp
    · simp [ih]
      tauto

/-- Membership is preserved by `sortDesc`. -/
theorem mem_sortDesc (key : α → Nat) (l : List α) (a : α) :
    a ∈ sortDesc key l ↔ a ∈ l := by
  induction l with
  | nil => simp [sortDesc]
  | cons x xs ih =>
    simp [sortDesc, mem_insertDesc, ih]

/-- C5: for every user id and store state, a self-follow request is
answered 400 "Cannot follow yourself" with the store left untouched — the
guard fires before any store operation. -/
theorem self_follow_rejected_before_store (st : StoreState) (a : String) :
    followRoute st a a = ({ status := 400, message := "Cannot follow yourself" }, st) := by
  simp [followRoute]

/-- C2: with a follow edge a → b already present, a second follow request
does leave the store unchanged with exactly one a → b edge, but it is
answered 500 "Failed to follow user", not 400 "Already following this
user": the handler matches the error code against the Postgres string
`'23505'` while the mongoose duplicate-key error carries the number 11000,
so the intended Conflict branch is unreachable. -/
theorem duplicate_follow_answers_500_not_400 :
    followRoute stTwoUsers "a" "b" =
      ({ status := 500, message := "Failed to follow user" }, stTwoUsers) ∧
    (stTwoUsers.follows.filter
      (fun f => f.followerId == "a" && f.followingId == "b")).length = 1 := by
  decide

/-- C6: starting from a state with no a → b edge, following makes
`isFollowing a b` true and a subsequent unfollow restores it to false. -/
theorem follow_unfollow_roundtrip (st : StoreState) (a b : String)
    (h : isFollowing st a b = false) :
    isFollowing (followUser st a b) a b = true ∧
    isFollowing (unfollowUser (followUser st a b) a b).2 a b = false := by
  refine ⟨?_, ?_⟩
  · simp [isFollowing, followUser]
  · simp only [isFollowing, unfollowUser, followUser]
    exact any_filter_not _ _

/-- C6 witness: instantiated on the concrete two-user store in the b → a
direction, where no edge exists. -/
theorem follow_unfollow_roundtrip_witness :
    isFollowing stTwoUsers "b" "a" = false ∧
    (isFollowing (followUser stTwoUsers "b" "a") "b" "a" = true ∧
     isFollowing (unfollowUser (followUser stTwoUsers "b" "a") "b" "a").2 "b" "a" = false) :=
  ⟨by decide, follow_unfollow_roundtrip stTwoUsers "b" "a" (by decide)⟩

/-- C7: a query that trims to the empty string makes `searchUsers` return
`[]` for every store state, viewer and limit (the guard returns before the
store is consulted, so the result cannot depend on the store). -/
theorem whitespace_query_returns_empty (st : StoreState) (q : String)
    (viewer : Option String) (limit : Option Int) (h : strTrim q = "") :
    searchUsers st q viewer limit = [] := by
  simp [searchUsers, h]

/-- C7 witness: a whitespace-only query on the concrete two-user store. -/
theorem whitespace_query_returns_empty_witness :
    strTrim "   " = "" ∧ searchUsers stTwoUsers "   " none none = [] :=
  ⟨by decide, whitespace_query_returns_empty stTwoUsers "   " none none (by decide)⟩

/-- C8: the number of search results never exceeds the caller limit
clamped into `[1, 25]` (defaulting to 10), and omitting the limit behaves
exactly like passing 10. -/
theorem search_limit_clamped (st : StoreState) (q : String) (viewer : Option String)
    (limit : Option Int) :
    (searchUsers st q viewer limit).length ≤ (min (max (limit.getD 10) 1) 25).toNat ∧
    searchUsers st q viewer none = searchUsers st q viewer (some 10) := by
  refine ⟨?_, rfl⟩
  by_cases h : strTrim q = ""
  · simp [searchUsers, h]
  · simp [searchUsers, h, List.length_take]

/-- Helper: in a list whose keys are pairwise distinct, filtering on the
key of a member yields exactly that member. -/
theorem filter_key_singleton {α β : Type} [BEq β] [LawfulBEq β] (key : α → β) :
    ∀ (l : List α), (l.map key).Nodup → ∀ (x : β) (a : α), a ∈ l → key a = x →
      l.filter (fun b => key b == x) = [a] := by
  intro l
  induction l with
  | nil => intro _ x a ha; cases ha
  | cons b t ih =>
    intro hnd x a ha hk
    rw [List.map_cons, List.nodup_cons] at hnd
    by_cases hb : key b = x
    · have hab : a = b := by
        rcases List.mem_cons.mp ha with h | h
        · exact h
        · exfalso
          apply hnd.1
          have hmem : key a ∈ t.map key := List.mem_map_of_mem key h
          rwa [hk, ← hb] at hmem
      subst hab
      rw [List.filter_cons_of_pos (by simp [hb])]
      have ht : t.filter (fun c => key c == x) = [] := by
        rw [List.filter_eq_nil_iff]
        intro c hc hcx
        apply hnd.1
        have hkc : key c = x := by simpa using hcx
        have hmem : key c ∈ t.map key := List.mem_map_of_mem key hc
        rwa [hkc, ← hb] at hmem
      rw [ht]
    · have hat : a ∈ t := by
        rcases List.mem_cons.mp ha with h | h
        · exact absurd (h ▸ hk) hb
        · exact h
      rw [List.filter_cons_of_neg (by simp [hb])]
      exact ih hnd.2 x a hat hk

/-- Helper: distinct keys make the key function injective on members. -/
theorem key_inj_of_nodup {α β : Type} [BEq β] [LawfulBEq β] (key : α → β) (l : List α)
    (hnd : (l.map key).Nodup) {a b : α} (ha : a ∈ l) (hb : b ∈ l) (hk : key a = key b) :
    a = b := by
  have h1 := filter_key_singleton key l hnd (key b) a ha hk
  have h2 := filter_key_singleton key l hnd (key b) b hb rfl
  rw [h1] at h2
  exact (List.cons_eq_cons.mp h2).1

/-- C4: with pairwise-distinct post and comment ids, deleting a post or a
comment on behalf of a requester who is not its author reports failure and
leaves the store exactly as it was; the deletion reports success precisely
when the requester authors a row with that id. -/
theorem delete_requires_ownership (st : StoreState) (pid cid : Nat) (req : String)
    (hp : (st.posts.map Post.id).Nodup) (hc : (st.comments.map Comment.id).Nodup) :
    (∀ p ∈ st.posts, p.id = pid → p.userId ≠ req → deletePost st pid req = (false, st)) ∧
    ((deletePost st pid req).1 = true ↔ ∃ p ∈ st.posts, p.id = pid ∧ p.userId = req) ∧
    (∀ c ∈ st.comments, c.id = cid → c.userId ≠ req → deleteComment st cid req = (false, st)) ∧
    ((deleteComment st cid req).1 = true ↔ ∃ c ∈ st.comments, c.id = cid ∧ c.userId = req) := by
  refine ⟨?_, ?_, ?_, ?_⟩
  · intro p hp1 hp2 hp3
    have hnone : ∀ q ∈ st.posts, ¬(q.id == pid && q.userId == req) = true := by
      intro q hq hmatch
      simp only [Bool.and_eq_true, beq_iff_eq] at hmatch
      have : q = p := key_inj_of_nodup Post.id st.posts hp hq hp1 (by rw [hmatch.1, hp2])
      exact hp3 (this ▸ hmatch.2)
    simp only [deletePost]
    have h1 : st.posts.filter (fun q => q.id == pid && q.userId == req) = [] :=
      List.filter_eq_nil_iff.mpr hnone
    have h2 : st.posts.filter (fun q => !(q.id == pid && q.userId == req)) = st.posts := by
      apply List.filter_eq_self.mpr
      intro q hq
      have h3 : (q.id == pid && q.userId == req) = false :=
        Bool.eq_false_iff.mpr (hnone q hq)
      simp [h3]
    simp only [h1, h2]
    simp
  · simp only [deletePost]
    constructor
    · intro h
      rcases List.length_pos_iff_exists_mem.mp (by simpa using h) with ⟨p, hp1⟩
      have := List.mem_filter.mp hp1
      refine ⟨p, this.1, ?_⟩
      have hb := this.2
      simp only [Bool.and_eq_true, beq_iff_eq] at hb
      exact hb
    · rintro ⟨p, hp1, hp2, hp3⟩
      have : p ∈ st.posts.filter (fun q => q.id == pid && q.userId == req) :=
        List.mem_filter.mpr ⟨hp1, by simp [hp2, hp3]⟩
      simpa using List.length_pos_of_mem this
  · intro c hc1 hc2 hc3
    have hnone : ∀ q ∈ st.comments, ¬(q.id == cid && q.userId == req) = true := by
      intro q hq hmatch
      simp only [Bool.and_eq_true, beq_iff_eq] at hmatch
      have : q = c := key_inj_of_nodup Comment.id st.comments hc hq hc1 (by rw [hmatch.1, hc2])
      exact hc3 (this ▸ hmatch.2)
    simp only [deleteComment]
    have h1 : st.comments.filter (fun q => q.id == cid && q.userId == req) = [] :=
      List.filter_eq_nil_iff.mpr hnone
    have h2 : st.comments.filter (fun q => !(q.id == cid && q.userId == req)) = st.comments := by
      apply List.filter_eq_self.mpr
      intro q hq
      have h3 : (q.id == cid && q.userId == req) = false :=
        Bool.eq_false_iff.mpr (hnone q hq)
      simp [h3]
    simp only [h1, h2]
    simp
  · simp only [deleteComment]
    constructor
    · intro h
      rcases List.length_pos_iff_exists_mem.mp (by simpa using h) with ⟨c, hc1⟩
      have := List.mem_filter.mp hc1
      refine ⟨c, this.1, ?_⟩
      have hb := this.2
      simp only [Bool.and_eq_true, beq_iff_eq] at hb
      exact hb
    · rintro ⟨c, hc1, hc2, hc3⟩
      have : c ∈ st.comments.filter (fun q => q.id == cid && q.userId == req) :=
        List.mem_filter.mpr ⟨hc1, by simp [hc2, hc3]⟩
      simpa using List.length_pos_of_mem this

/-- C4 witness: on the concrete store, user b cannot delete user a's post
with id 1 — the call reports false and the store is untouched. -/
theorem delete_requires_ownership_witness :
    ((stWitFeed.posts.map Post.id).Nodup ∧ (stWitFeed.comments.map Comment.id).Nodup) ∧
    deletePost stWitFeed 1 "b" = (false, stWitFeed) :=
  ⟨⟨by decide, by decide⟩,
   (delete_requires_ownership stWitFeed 1 1 "b" (by decide) (by decide)).1
     { id := 1, userId := "a", content := "hello world", imageUrl := none, createdAt := 5 }
     (by decide) rfl (by decide)⟩

/-- Helper: a referenced id with an existing unique holder filters to a
singleton user list. -/
theorem users_filter_eq_single (users : List User) (hids : (users.map (fun u => u.id)).Nodup)
    (x : String) (hx : ∃ u ∈ users, u.id = x) :
    ∃ u ∈ users, u.id = x ∧ users.filter (fun u2 => u2.id == x) = [u] := by
  rcases hx with ⟨u, hu, hux⟩
  exact ⟨u, hu, hux, filter_key_singleton (fun u2 => u2.id) users hids x u hu hux⟩

/-- Helper: mapping the first component over the author join recovers the
post list when every author join is a singleton. -/
theorem join_fst (users : List User) :
    ∀ (ps : List Post), (∀ p ∈ ps, ∃ u, users.filter (fun u2 => u2.id == p.userId) = [u]) →
      (ps.flatMap (fun p => (users.filter (fun u => u.id == p.userId)).map
          (fun u => (p, u)))).map Prod.fst = ps := by
  intro ps
  induction ps with
  | nil => intro _; rfl
  | cons p t ih =>
    intro h
    rcases h p (List.mem_cons_self p t) with ⟨u, hu⟩
    rw [List.flatMap_cons, List.map_append, hu]
    rw [ih (fun q hq => h q (List.mem_cons_of_mem p hq))]
    rfl

/-- Helper: the ids listed by `getFollowing` are exactly the raw follow
targets, when every target has an existing user record and user ids are
unique. -/
theorem getFollowing_ids_eq (st : StoreState) (v : String)
    (hids : (st.users.map (fun u => u.id)).Nodup)
    (hfollows : ∀ f ∈ st.follows, ∃ u ∈ st.users, u.id = f.followingId) :
    (getFollowing st v).map (fun u => u.id)
      = (st.follows.filter (fun f => f.followerId == v)).map (fun f => f.followingId) := by
  unfold getFollowing
  have key : ∀ fs : List Follow, (∀ f ∈ fs, f ∈ st.follows) →
      (fs.flatMap (fun f => st.users.filter (fun u => u.id == f.followingId))).map
          (fun u => u.id) = fs.map (fun f => f.followingId) := by
    intro fs
    induction fs with
    | nil => intro _; rfl
    | cons f t ih =>
      intro h
      rcases users_filter_eq_single st.users hids f.followingId
          (hfollows f (h f (List.mem_cons_self f t))) with ⟨u, hu, hux, hfilter⟩
      rw [List.flatMap_cons, List.map_append, hfilter]
      rw [ih (fun g hg => h g (List.mem_cons_of_mem f hg))]
      simp [hux]
  exact key _ (fun f hf => (List.mem_filter.mp hf).1)

/-- Helper: the spec-side author set is the raw follow-target list plus the
viewer. -/
theorem specFeedAuthors_eq (st : StoreState) (v : String)
    (hids : (st.users.map (fun u => u.id)).Nodup)
    (hfollows : ∀ f ∈ st.follows, ∃ u ∈ st.users, u.id = f.followingId) :
    specFeedAuthors st v
      = (st.follows.filter (fun f => f.followerId == v)).map (fun f => f.followingId) ++ [v] := by
  unfold specFeedAuthors
  rw [getFollowing_ids_eq st v hids hfollows]

/-- C1: in a store with unique user ids where every post author and every
follow target exists, the personalized feed returns exactly the posts whose
author lies in `S = listFollowing(viewer) ∪ \{viewer\}`, newest-first,
with `offset` dropped and `limit` taken; in particular a viewer following
nobody gets exactly their own posts, newest-first and paginated the same
way (not the empty list). -/
theorem feed_is_follow_scoped (st : StoreState) (v : String) (limit offset : Nat)
    (hids : (st.users.map (fun u => u.id)).Nodup)
    (hposts : ∀ p ∈ st.posts, ∃ u ∈ st.users, u.id = p.userId)
    (hfollows : ∀ f ∈ st.follows, ∃ u ∈ st.users, u.id = f.followingId) :
    (getFeedPosts st v limit offset).map PostWithAuthor.post =
      (((sortDesc (fun p : Post => p.createdAt) st.posts).filter
          (fun p => (specFeedAuthors st v).contains p.userId)).drop offset).take limit ∧
    (st.follows.filter (fun f => f.followerId == v) = [] →
      (getFeedPosts st v limit offset).map PostWithAuthor.post =
        (((sortDesc (fun p : Post => p.createdAt) st.posts).filter
            (fun p => p.userId == v)).drop offset).take limit) := by
  have hmain : (getFeedPosts st v limit offset).map PostWithAuthor.post =
      (((sortDesc (fun p : Post => p.createdAt) st.posts).filter
          (fun p => (((st.follows.filter (fun f => f.followerId == v)).map
            (fun f => f.followingId)) ++ [v]).contains p.userId)).drop offset).take limit := by
    simp only [getFeedPosts]
    rw [if_neg (by simp)]
    rw [List.map_map]
    have hcomp : (PostWithAuthor.post ∘ fun r : Post × User =>
        ({ post := r.1, author := r.2, likesCount := getLikesCount st r.1.id,
           commentsCount := getCommentsCount st r.1.id,
           isLiked := isLiked st v r.1.id } : PostWithAuthor)) = Prod.fst := rfl
    rw [hcomp, List.map_take, List.map_drop]
    rw [join_fst st.users _ ?single]
    case single =>
      intro p hp
      have hmem : p ∈ st.posts := by
        have := (List.mem_filter.mp hp).1
        exact (mem_sortDesc (fun p : Post => p.createdAt) st.posts p).mp this
      rcases users_filter_eq_single st.users hids p.userId (hposts p hmem) with ⟨u, _, _, hf⟩
      exact ⟨u, hf⟩
  refine ⟨?_, ?_⟩
  · rw [specFeedAuthors_eq st v hids hfollows]
    exact hmain
  · intro hf
    rw [hf] at hmain
    rw [hmain]
    have hfc : (sortDesc (fun p : Post => p.createdAt) st.posts).filter
        (fun p => ((([] : List Follow).map (fun f => f.followingId)) ++ [v]).contains p.userId)
      = (sortDesc (fun p : Post => p.createdAt) st.posts).filter (fun p => p.userId == v) := by
      apply List.filter_congr
      intro p _
      by_cases hpv : p.userId = v <;> simp [hpv]
    rw [hfc]

/-- C1 witness: the feed equations instantiated on the concrete two-user
store for viewer a, with all well-formedness hypotheses decided. -/
theorem feed_is_follow_scoped_witness :
    ((stWitFeed.users.map (fun u => u.id)).Nodup ∧
     (∀ p ∈ stWitFeed.posts, ∃ u ∈ stWitFeed.users, u.id = p.userId) ∧
     (∀ f ∈ stWitFeed.follows, ∃ u ∈ stWitFeed.users, u.id = f.followingId)) ∧
    (getFeedPosts stWitFeed "a" 50 0).map PostWithAuthor.post =
      (((sortDesc (fun p : Post => p.createdAt) stWitFeed.posts).filter
          (fun p => (specFeedAuthors stWitFeed "a").contains p.userId)).drop 0).take 50 :=
  ⟨⟨by decide, by decide, by decide⟩,
   (feed_is_follow_scoped stWitFeed "a" 50 0 (by decide) (by decide) (by decide)).1⟩

/-- Helper: every row of an author-joined post read carries an author
drawn from the user list. -/
theorem author_mem_of_post_join (users : List User) (ps : List Post)
    (g : Post → User → PostWithAuthor) (hg : ∀ p u, (g p u).author = u)
    (r : PostWithAuthor)
    (hr : r ∈ ps.filterMap (fun p => (users.find? (fun u => u.id == p.userId)).map (g p))) :
    r.author ∈ users := by
  rcases List.mem_filterMap.mp hr with ⟨p, _, hp⟩
  rcases Option.map_eq_some.mp hp with ⟨u, hu, hru⟩
  have := List.mem_of_find?_eq_some hu
  rw [← hru, hg]
  exact this

/-- Helper: same statement for the comment join. -/
theorem author_mem_of_comment_join (users : List User) (cs : List Comment)
    (g : Comment → User → CommentWithAuthor) (hg : ∀ c u, (g c u).author = u)
    (r : CommentWithAuthor)
    (hr : r ∈ cs.filterMap (fun c => (users.find? (fun u => u.id == c.userId)).map (g c))) :
    r.author ∈ users := by
  rcases List.mem_filterMap.mp hr with ⟨c, _, hc⟩
  rcases Option.map_eq_some.mp hc with ⟨u, hu, hru⟩
  have := List.mem_of_find?_eq_some hu
  rw [← hru, hg]
  exact this

/-- C9: in the document-backend list reads, every returned row's author is
an existing user record (rows whose author vanished are silently dropped);
consequently the page can be shorter than the requested limit even though
more matching rows exist, shown on a one-post store with a missing
author. -/
theorem db_reads_drop_orphaned_authors :
    (∀ (st : StoreState) (cu : Option String) (limit offset : Nat) (r : PostWithAuthor),
      r ∈ dbGetPosts st cu limit offset → r.author ∈ st.users) ∧
    (∀ (st : StoreState) (v : String) (limit offset : Nat) (r : PostWithAuthor),
      r ∈ dbGetFeedPosts st v limit offset → r.author ∈ st.users) ∧
    (∀ (st : StoreState) (uid : String) (cu : Option String) (r : PostWithAuthor),
      r ∈ dbGetUserPosts st uid cu → r.author ∈ st.users) ∧
    (∀ (st : StoreState) (pid : Nat) (r : CommentWithAuthor),
      r ∈ dbGetComments st pid → r.author ∈ st.users) ∧
    (dbGetPosts stOrphan none 1 0 = [] ∧ stOrphan.posts.length = 1) := by
  refine ⟨?_, ?_, ?_, ?_, by decide, by decide⟩
  · intro st cu limit offset r hr
    exact author_mem_of_post_join st.users _ _ (fun p u => rfl) r hr
  · intro st v limit offset r hr
    exact author_mem_of_post_join st.users _ _ (fun p u => rfl) r hr
  · intro st uid cu r hr
    exact author_mem_of_post_join st.users _ _ (fun p u => rfl) r hr
  · intro st pid r hr
    exact author_mem_of_comment_join st.users _ _ (fun c u => rfl) r hr

/-- C9 witness: on the concrete store the newest feed row is present and
its author is an existing user record. -/
theorem db_reads_drop_orphaned_authors_witness :
    rowWitFeed ∈ dbGetPosts stWitFeed none 5 0 ∧ rowWitFeed.author ∈ stWitFeed.users :=
  ⟨by decide,
   db_reads_drop_orphaned_authors.1 stWitFeed none 5 0 rowWitFeed (by decide)⟩

/-- C10: with unique user ids and unique usernames, the profile-update
handler answers 400 "Username is already taken" exactly when a different
user already holds the submitted username; a user resubmitting their own
current username passes the check and receives the updated record. -/
theorem username_check_excludes_requester (st : StoreState) (userId : String)
    (body : UpdateMeBody)
    (hids : (st.users.map (fun u => u.id)).Nodup)
    (huname : ∀ u1 ∈ st.users, ∀ u2 ∈ st.users,
      u1.username.isSome → u1.username = u2.username → u1 = u2) :
    ((updateMeRoute st userId body).1 =
        UpdateMeResult.rejected 400 "Username is already taken" ↔
      ∃ uname, body.username = some uname ∧
        ∃ u ∈ st.users, u.username = some uname ∧ u.id ≠ userId) ∧
    (∀ uname r, body.username = some uname → r ∈ st.users → r.id = userId →
      r.username = some uname →
      (updateMeRoute st userId body).1 =
        UpdateMeResult.updated (some (applyUpdate
          { username := body.username,
            bio := body.bio.map (fun b => if b = "" then none else some b),
            profileImageUrl :=
              body.profileImageUrl.map (fun p => if p = "" then none else some p) } r))) := by
  constructor
  · rcases hbu : body.username with _ | uname
    · simp [updateMeRoute, hbu]
    · rcases hfind : getUserByUsername st uname with _ | ex
      · have hfind2 : st.users.find? (fun u => u.username == some uname) = none := by
          simpa [getUserByUsername] using hfind
        have hnone : ∀ u ∈ st.users, u.username ≠ some uname := by
          intro u hu heq
          have := List.find?_eq_none.mp hfind2 u hu
          simp [heq] at this
        simp only [updateMeRoute, hbu, hfind]
        simp
        intro u hu h1
        exact absurd h1 (hnone u hu)
      · have hfind2 : st.users.find? (fun u => u.username == some uname) = some ex := by
          simpa [getUserByUsername] using hfind
        have hexu : ex.username = some uname := by
          have := List.find?_some hfind2
          simpa using this
        have hexmem : ex ∈ st.users := List.mem_of_find?_eq_some hfind2
        by_cases hid : ex.id = userId
        · simp only [updateMeRoute, hbu, hfind, hid]
          simp
          intro u hu h1
          have hexeq : ex = u :=
            huname ex hexmem u hu (by simp [hexu]) (by rw [hexu, h1])
          exact hexeq ▸ hid
        · simp only [updateMeRoute, hbu, hfind]
          simp [hid]
          exact ⟨ex, hexmem, hexu, hid⟩
  · intro uname r hbu hrmem hrid hru
    rcases hfind : getUserByUsername st uname with _ | ex
    · exfalso
      have hfind2 : st.users.find? (fun u => u.username == some uname) = none := by
        simpa [getUserByUsername] using hfind
      have := List.find?_eq_none.mp hfind2 r hrmem
      simp [hru] at this
    · have hfind2 : st.users.find? (fun u => u.username == some uname) = some ex := by
        simpa [getUserByUsername] using hfind
      have hexu : ex.username = some uname := by
        have := List.find?_some hfind2
        simpa using this
      have hexmem : ex ∈ st.users := List.mem_of_find?_eq_some hfind2
      have hexr : ex = r := huname ex hexmem r hrmem (by simp [hexu]) (by rw [hexu, hru])
      have hid : ex.id = userId := by rw [hexr, hrid]
      have hsingle : st.users.filter (fun u => u.id == userId) = [r] :=
        filter_key_singleton (fun u => u.id) st.users hids userId r hrmem hrid
      simp [updateMeRoute, hbu, hfind, hid, updateUser, hsingle]

/-- C10 witness: on the concrete two-user store, user a resubmits their own
username "alice" and receives the updated record. -/
theorem username_check_excludes_requester_witness :
    (updateMeRoute stTwoUsers "a"
        { username := some "alice", bio := none, profileImageUrl := none }).1 =
      UpdateMeResult.updated (some (applyUpdate
        { username := some "alice", bio := none, profileImageUrl := none }
        { id := "a", email := none, username := some "alice", firstName := none,
          lastName := none, bio := none, profileImageUrl := none, createdAt := 1 })) :=
  (username_check_excludes_requester stTwoUsers "a"
      { username := some "alice", bio := none, profileImageUrl := none }
      (by decide) (by decide)).2 "alice"
    { id := "a", email := none, username := some "alice", firstName := none,
      lastName := none, bio := none, profileImageUrl := none, createdAt := 1 }
    rfl (by decide) rfl rfl

/-- Helper: some suffix in `tails` is always empty. -/
theorem tails_any_isEmpty (s : List Char) : (tails s).any (fun x => x.isEmpty) = true := by
  induction s with
  | nil => rfl
  | cons d t ih => simp [tails, ih]

/-- Helper: a leading `%` matches exactly when some suffix matches the rest
of the pattern. -/
theorem likeMatch_pct (p : List Char) (s : List Char) :
    likeMatch ('%' :: p) s = (tails s).any (fun s2 => likeMatch p s2) := by
  rw [likeMatch.eq_def]
  simp

/-- Helper: a pattern free of wildcards and of the escape character,
followed by `%`, matches exactly the strings it case-insensitively
prefixes. -/
theorem likeMatch_plain_pct (t : List Char)
    (hplain : ∀ c ∈ t, c ≠ '%' ∧ c ≠ '_' ∧ c ≠ '\\') :
    ∀ s, likeMatch (t ++ ['%']) s
      = (t.map Char.toLower).isPrefixOf (s.map Char.toLower) := by
  induction t with
  | nil =>
    intro s
    show likeMatch ['%'] s = _
    rw [likeMatch_pct]
    have hnil : (fun s2 : List Char => likeMatch [] s2)
        = (fun s2 : List Char => s2.isEmpty) := by
      funext s2
      rw [likeMatch.eq_def]
    rw [hnil, tails_any_isEmpty]
    simp [List.isPrefixOf]
  | cons c t ih =>
    intro s
    have hc := hplain c (List.mem_cons_self c t)
    cases s with
    | nil =>
      rw [likeMatch.eq_def]
      simp [hc.1, hc.2.2, List.isPrefixOf]
    | cons d s2 =>
      rw [likeMatch.eq_def]
      simp [hc.1, hc.2.1, hc.2.2,
        ih (fun x hx => hplain x (List.mem_cons_of_mem c hx)) s2, List.isPrefixOf]

/-- Helper: the pattern `%t%` with `t` free of wildcards and of the
escape character matches exactly the strings containing `t`
case-insensitively. -/
theorem likeMatch_wrapped (t : List Char)
    (hplain : ∀ c ∈ t, c ≠ '%' ∧ c ≠ '_' ∧ c ≠ '\\') :
    ∀ s, likeMatch ('%' :: (t ++ ['%'])) s
      = hasInfix (t.map Char.toLower) (s.map Char.toLower) := by
  intro s
  induction s with
  | nil =>
    rw [likeMatch_pct]
    show [([] : List Char)].any _ = _
    rw [List.any_cons]
    rw [likeMatch_plain_pct t hplain]
    cases t <;> simp [hasInfix, List.isPrefixOf]
  | cons d s2 ih =>
    rw [likeMatch_pct]
    show ((d :: s2) :: tails s2).any _ = _
    rw [List.any_cons, ← likeMatch_pct, ih, likeMatch_plain_pct t hplain]
    simp [hasInfix]

/-- Helper: on every nullable field, the `%trimmed%` `ILIKE` match agrees
with literal case-insensitive containment when the query contains neither
a wildcard nor the escape character. -/
theorem ilikeOpt_plain (t : String)
    (hplain : ∀ c ∈ t.data, c ≠ '%' ∧ c ≠ '_' ∧ c ≠ '\\')
    (field : Option String) :
    ilikeOpt field ('%' :: (t.data ++ ['%'])) = (field.map (containsCI t)).getD false := by
  cases field with
  | none => rfl
  | some str => simp [ilikeOpt, containsCI, likeMatch_wrapped t.data hplain]

/-- C3 (amended): the relational backend's `searchUsers` matches against
the whitespace-trimmed query spliced into the `ILIKE` pattern `%q%`, where
`%` and `_` are wildcards and backslash escapes the next character; for
trimmed queries containing none of `%`, `_` and backslash it agrees
exactly with the spec-side search — the users whose username, first or
last name contains the trimmed query as a case-insensitive literal
substring, the viewer excluded when present, newest-first, capped at the
clamped limit, each row annotated with followers-count and the
viewer-relative `isFollowing`.  (The document backend compiles the trimmed
query into a case-insensitive regular expression instead, which is
likewise not literal-substring matching; it is not covered by this
equivalence.) -/
theorem search_is_ci_substring_of_trimmed (st : StoreState) (q : String)
    (viewer : Option String) (limit : Option Int)
    (hplain : ∀ c ∈ (strTrim q).data, c ≠ '%' ∧ c ≠ '_' ∧ c ≠ '\\') :
    searchUsers st q viewer limit = specSearchUsers st q viewer limit := by
  by_cases h : strTrim q = ""
  · simp [searchUsers, specSearchUsers, h]
  · simp only [searchUsers, specSearchUsers]
    rw [if_neg h, if_neg h]
    congr 1
    congr 1
    apply List.filter_congr
    intro u _
    have h1 := ilikeOpt_plain (strTrim q) hplain u.username
    have h2 := ilikeOpt_plain (strTrim q) hplain u.firstName
    have h3 := ilikeOpt_plain (strTrim q) hplain u.lastName
    cases viewer <;> simp [h1, h2, h3, specNameMatch]

/-- C3 counterexample: the query "a_c" returns the user named "abc"
although no name of that user contains "a_c" as a literal case-insensitive
substring — the underscore acts as a single-character wildcard. -/
theorem search_literal_substring_counterexample :
    (searchUsers stOneUserAbc "a_c" none none).map (fun r => r.user.id) = ["u1"] ∧
    (∀ r ∈ searchUsers stOneUserAbc "a_c" none none,
      specNameMatch (strTrim "a_c") r.user = false) := by
  decide

/-- C3 witness: the amended equivalence instantiated on the concrete store
with the wildcard-free query "ab". -/
theorem search_is_ci_substring_of_trimmed_witness :
    (∀ c ∈ (strTrim "ab").data, c ≠ '%' ∧ c ≠ '_' ∧ c ≠ '\\') ∧
    searchUsers stOneUserAbc "ab" none none = specSearchUsers stOneUserAbc "ab" none none :=
  ⟨by decide, search_is_ci_substring_of_trimmed stOneUserAbc "ab" none none (by decide)⟩
